import Mathlib

/-!
Verification development for the safe-account-anywhere repository.

The embedding models the core of src/app/utils/blockchain.ts and
src/app/utils/wallet.ts: the deployment-transaction decoder
(parseDeploymentTransaction), the code-presence verifiers
(verifySafeDeployment / verifyContractDeployment) and the replay executor
(deploySafe).  Network interaction is modelled as an explicit oracle
(structures Chain and WalletWorld); hex payloads are modelled at the
granularity the source works at, namely JavaScript strings of hex
characters, so that the source's character-level slicing
(tx.input.slice(10), topics[1].slice(26), initializerData.slice(8)) is
reproduced exactly.  The viem helpers the source calls
(decodeAbiParameters with the three concrete parameter lists, and the
hexToBytes conversion it performs internally, which strips the first two
characters of its argument unconditionally and validates the rest as hex
digits) are embedded byte-faithfully; the only abstraction is that
decoded addresses keep the hex characters found in the payload instead of
being re-cased by EIP-55 checksumming (a keccak-based re-casing of the
same 20 bytes), and that viem's recursive-read limit is not modelled.
-/

namespace SafeAnywhere

/-- Errors surfaced by the embedded operations.  `thrown msg` is a
`new Error(msg)` raised by the repository code itself, `abiDecode` is a
decoding exception raised inside viem's decodeAbiParameters, and `rpc msg`
is a transport-level failure surfaced by the RPC client. -/
inductive Err where
  | thrown (msg : String)
  | abiDecode
  | rpc (msg : String)
deriving DecidableEq, Repr

/-- A receipt log: topics, data payload, and the emitting contract address. -/
structure Log where
  topics : List String
  data : String
  address : String
deriving DecidableEq, Repr

/-- A transaction receipt, as consumed by the source: only its logs. -/
structure Receipt where
  logs : List Log
deriving DecidableEq, Repr

/-- A fetched transaction, as consumed by the source: destination,
call data, and value. -/
structure Tx where
  «to» : String
  input : String
  value : Nat
deriving DecidableEq, Repr

/-- The read-side RPC world behind createPublicClientForChain: responses
of getTransaction, getTransactionReceipt and getBytecode. -/
structure Chain where
  getTransaction : String → Except Err Tx
  getTransactionReceipt : String → Except Err Receipt
  getBytecode : String → Except Err (Option String)

/-- The record returned by parseDeploymentTransaction (blockchain.ts,
lines 134-143).  `singleton` is undefined in the v1.4.1 branch of the
source, modelled as none. -/
structure DeploymentRecord where
  factoryAddress : String
  singleton : Option String
  owners : List String
  threshold : Nat
  fallbackHandler : String
  saltNonce : String
  hex : String
  safeAddress : String
deriving DecidableEq, Repr

/-- JavaScript s.slice(n) on a string, at character granularity. -/
def jsSlice (s : String) (n : Nat) : String := String.mk (s.toList.drop n)

/-- JavaScript s.startsWith(p). -/
def jsStartsWith (s p : String) : Bool := p.toList.isPrefixOf s.toList

/-- Is the character a hexadecimal digit (0-9, a-f, A-F)?  Mirrors viem's
charCodeToBase16, which rejects anything else. -/
def isHexDigit (c : Char) : Bool :=
  (48 ≤ c.toNat && c.toNat ≤ 57) ||
  (97 ≤ c.toNat && c.toNat ≤ 102) ||
  (65 ≤ c.toNat && c.toNat ≤ 70)

/-- Numeric value of a hex digit (mirrors viem's charCodeToBase16 on
valid digits). -/
def hexDigitVal (c : Char) : Nat :=
  if c.toNat ≤ 57 then c.toNat - 48
  else if c.toNat ≤ 70 then c.toNat - 55
  else c.toNat - 87

/-- Big-endian numeric value of a run of hex characters. -/
def hexToNat (cs : List Char) : Nat :=
  cs.foldl (fun acc c => 16 * acc + hexDigitVal c) 0

/-- viem's hexToBytes, at character granularity: unconditionally drops the
first two characters (assumed to be the 0x tag), left-pads with a zero
nibble if the remainder has odd length, and fails unless every remaining
character is a hex digit.  The validated character list stands for the
byte string (two characters per byte). -/
def hexToBytes (s : String) : Option (List Char) :=
  let t := s.toList.drop 2
  let t := if t.length % 2 = 1 then '0' :: t else t
  if t.all isHexDigit then some t else none

/-- Read the 32-byte word at byte offset `off` of the payload (viem's
cursor.readBytes(32); fails when out of bounds). -/
def readWord (d : List Char) (off : Nat) : Option (List Char) :=
  let w := (d.drop (2 * off)).take 64
  if w.length = 64 then some w else none

/-- viem's address decoder at a head/tail byte offset: takes the low 20
bytes of the 32-byte word.  EIP-55 checksum re-casing is abstracted away:
the hex characters of the payload are kept as they stand. -/
def decodeAddressAt (d : List Char) (off : Nat) : Option String :=
  (readWord d off).map (fun w => String.mk ('0' :: 'x' :: w.drop 24))

/-- viem's uint256 decoder at a byte offset. -/
def decodeUintAt (d : List Char) (off : Nat) : Option Nat :=
  (readWord d off).map hexToNat

/-- viem's dynamic `bytes` decoder: read the tail offset stored at head
offset `off`, read the byte length stored there, then read that many
bytes; the result is rendered as a 0x-tagged hex string (viem's
bytesToHex). -/
def decodeBytesAt (d : List Char) (off : Nat) : Option String := do
  let o ← decodeUintAt d off
  let len ← decodeUintAt d o
  let content := (d.drop (2 * (o + 32))).take (2 * len)
  if content.length = 2 * len then
    pure (String.mk ('0' :: 'x' :: content))
  else
    none

/-- Decode `n` consecutive 32-byte address words starting at byte offset
`pos` (the elements of an address[] tail). -/
def decodeAddrList (d : List Char) (pos : Nat) : Nat → Option (List String)
  | 0 => some []
  | n + 1 => do
    let a ← decodeAddressAt d pos
    let rest ← decodeAddrList d (pos + 32) n
    pure (a :: rest)

/-- viem's dynamic address[] decoder: read the tail offset stored at head
offset `off`, read the element count stored there, then decode that many
inline address words. -/
def decodeAddressArrayAt (d : List Char) (off : Nat) : Option (List String) := do
  let o ← decodeUintAt d off
  let n ← decodeUintAt d o
  decodeAddrList d (o + 32) n

/-- decodeAbiParameters([{type: address}, {type: address}], data), the
call at blockchain.ts line 105 decoding a v1.3.0 ProxyCreation log's data
payload. -/
def decodeTwoAddresses (s : String) : Option (String × String) := do
  let d ← hexToBytes s
  let a ← decodeAddressAt d 0
  let b ← decodeAddressAt d 32
  pure (a, b)

/-- decodeAbiParameters((address _singleton, bytes initializer,
uint256 saltNonce), inputData), the call at blockchain.ts line 116
decoding the createProxyWithNonce call data. -/
def decodeCreateProxyParams (s : String) : Option (String × String × Nat) := do
  let d ← hexToBytes s
  let singleton ← decodeAddressAt d 0
  let initializer ← decodeBytesAt d 32
  let saltNonce ← decodeUintAt d 64
  pure (singleton, initializer, saltNonce)

/-- decodeAbiParameters of the eight setup parameters (address[],
uint256, address, bytes, address, address, uint256, address), the call at
blockchain.ts line 129 decoding the initializer payload. -/
def decodeSetupParams (s : String) :
    Option (List String × Nat × String × String × String × String × Nat × String) := do
  let d ← hexToBytes s
  let owners ← decodeAddressArrayAt d 0
  let threshold ← decodeUintAt d 32
  let toAddr ← decodeAddressAt d 64
  let dat ← decodeBytesAt d 96
  let fallbackHandler ← decodeAddressAt d 128
  let paymentToken ← decodeAddressAt d 160
  let payment ← decodeUintAt d 192
  let paymentReceiver ← decodeAddressAt d 224
  pure (owners, threshold, toAddr, dat, fallbackHandler, paymentToken, payment, paymentReceiver)

/-- The 4-byte createProxyWithNonce selector checked at blockchain.ts
line 79. -/
def selectorCreateProxyWithNonce : String := "0x1688f0b9"

/-- The ProxyCreation event signature hash matched at blockchain.ts
line 87 and wallet.ts line 122. -/
def proxyCreationTopic : String :=
  "0x4f51faf6c4561ff95f067657e43439f0f856d97c04d9ec9070a6199ad418e235"

/-- The predicate of receipt.logs.find at blockchain.ts line 86:
log.topics[0] equals the ProxyCreation signature hash (an absent first
topic compares unequal, as JavaScript undefined does). -/
def isProxyCreationLog (l : Log) : Bool :=
  l.topics.head? == some proxyCreationTopic

/-- The version branch of blockchain.ts lines 99-110: with more than one
topic (Safe v1.4.1) the deployed address is 0x plus topics[1].slice(26)
and no singleton is produced; otherwise (Safe v1.3.0) two addresses are
ABI-decoded from the log's data payload. -/
def decodeProxyCreationEvent (ev : Log) : Option (String × Option String) :=
  match ev.topics with
  | _ :: t1 :: _ => some (String.mk ('0' :: 'x' :: t1.toList.drop 26), none)
  | _ => (decodeTwoAddresses ev.data).map (fun p => (p.1, some p.2))

/-- parseDeploymentTransaction (blockchain.ts lines 70-148).  The addLog
side channel is presentation-only and not modelled.  Failures inside
viem's decoders are caught and rethrown by the source's catch block;
they surface here as Err.abiDecode. -/
def parseDeploymentTransaction (chain : Chain) (rpcUrls : List String)
    (txHash : String) : Except Err DeploymentRecord :=
  if rpcUrls.isEmpty then
    .error (.thrown "RPC URLs are missing")
  else
    match chain.getTransaction txHash with
    | .error e => .error e
    | .ok tx =>
      if !(jsStartsWith tx.input selectorCreateProxyWithNonce) then
        .error (.thrown "This transaction does not appear to be a Safe deployment transaction")
      else
        match chain.getTransactionReceipt txHash with
        | .error e => .error e
        | .ok receipt =>
          match receipt.logs.find? isProxyCreationLog with
          | none => .error (.thrown "ProxyCreation event not found in transaction logs")
          | some ev =>
            match decodeProxyCreationEvent ev with
            | none => .error .abiDecode
            | some (safeAddress, singleton) =>
              match decodeCreateProxyParams (String.mk ('0' :: 'x' :: tx.input.toList.drop 10)) with
              | none => .error .abiDecode
              | some (_, initializer, saltNonce) =>
                match decodeSetupParams (jsSlice initializer 8) with
                | none => .error .abiDecode
                | some (owners, threshold, _, _, fallbackHandler, _, _, _) =>
                  .ok { factoryAddress := tx.«to»
                        singleton := singleton
                        owners := owners
                        threshold := threshold
                        fallbackHandler := fallbackHandler
                        saltNonce := Nat.repr saltNonce
                        hex := tx.input
                        safeAddress := safeAddress }

/-- verifySafeDeployment (blockchain.ts lines 56-68): empty endpoint list
fails with the configuration message; otherwise the getBytecode answer is
mapped to a boolean (present and not the empty-code sentinel) and any RPC
failure is rethrown unchanged. -/
def verifySafeDeployment (chain : Chain) (rpcUrls : List String)
    (safeAddress : String) : Except Err Bool :=
  if rpcUrls.isEmpty then
    .error (.thrown "RPC URLs are missing. Please ensure the chain information is correctly fetched and passed.")
  else
    match chain.getBytecode safeAddress with
    | .error e => .error e
    | .ok code =>
      .ok (match code with
           | none => false
           | some c => c != "0x")

/-- verifyContractDeployment (blockchain.ts lines 181-193): identical to
verifySafeDeployment except for the message of the empty-endpoint
error. -/
def verifyContractDeployment (chain : Chain) (rpcUrls : List String)
    (address : String) : Except Err Bool :=
  if rpcUrls.isEmpty then
    .error (.thrown "RPC URLs are missing")
  else
    match chain.getBytecode address with
    | .error e => .error e
    | .ok code =>
      .ok (match code with
           | none => false
           | some c => c != "0x")

/-- The wallet-side world behind deploySafe (wallet.ts lines 63-139):
the chain-metadata fetch plus client construction, the wallet address
lookup, transaction broadcasting, and receipt waiting.  getBytecode is
the target chain's code lookup; it is part of the world so that theorems
can quantify over the code present at any address, but deploySafe never
consults it. -/
structure WalletWorld where
  fetchChainInfo : Except Err Unit
  getAddresses : Except Err String
  sendTransaction : String → String → String → Nat → Except Err String
  waitForTransactionReceipt : String → Except Err Receipt
  getBytecode : String → Except Err (Option String)

/-- deploySafe (wallet.ts lines 63-139).  The first component is the
function's result (transaction hash and the ProxyCreation log's emitting
address); the second component records every broadcast call issued
through walletClient.sendTransaction as a (to, data, value) triple, so
that temporal claims about when a broadcast happens can be stated.  The
source issues at most one such call, with to = factoryAddress,
data = deploymentData and value = BigInt(0), and performs no code
presence check beforehand. -/
def deploySafe (w : WalletWorld) (factoryAddress deploymentData : String) :
    Except Err (String × String) × List (String × String × Nat) :=
  match w.fetchChainInfo with
  | .error e => (.error e, [])
  | .ok _ =>
    match w.getAddresses with
    | .error e => (.error e, [])
    | .ok account =>
      match w.sendTransaction account factoryAddress deploymentData 0 with
      | .error e => (.error e, [(factoryAddress, deploymentData, 0)])
      | .ok hash =>
        match w.waitForTransactionReceipt hash with
        | .error e => (.error e, [(factoryAddress, deploymentData, 0)])
        | .ok receipt =>
          match receipt.logs.find? isProxyCreationLog with
          | none =>
            (.error (.thrown "ProxyCreation event not found in transaction logs"),
             [(factoryAddress, deploymentData, 0)])
          | some ev => (.ok (hash, ev.address), [(factoryAddress, deploymentData, 0)])

/-- The retryCount value passed to viem's fallback transport by
createPublicClientForChain (blockchain.ts line 175). -/
def fallbackRetryCount : Nat := 3

/-- The retryDelay value, in milliseconds, passed to viem's fallback
transport by createPublicClientForChain (blockchain.ts line 176). -/
def fallbackRetryDelayMs : Nat := 1000

/-- Modelled from the spec: the retry loop of the multi-endpoint client.
The loop itself lives in viem's fallback transport, which
createPublicClientForChain (blockchain.ts lines 168-179) configures with
rank: true, retryCount: 3, retryDelay: 1000, and is not part of this
repository's sources.  Per spec section 4.1, a single endpoint is
attempted repeatedly, up to the retry budget, before being skipped.
`behave i` is the outcome of attempt number `i` against the endpoint; the
result pairs the first success (if any) with the number of attempts made.
The fixed inter-attempt backoff is wall-clock behavior and is represented
only by the configured constant fallbackRetryDelayMs. -/
def attemptWithRetries {α : Type} (behave : Nat → Option α) :
    Nat → Nat → Option α × Nat
  | i, 0 => (none, i)
  | i, budget + 1 =>
    match behave i with
    | some v => (some v, i + 1)
    | none => attemptWithRetries behave (i + 1) budget

/-- Modelled from the spec: endpoint failover of the multi-endpoint
client (spec section 4.1), over an endpoint pool in rank order.
Endpoints are tried in order; each is given fallbackRetryCount attempts
(attemptWithRetries) before being skipped; the first success is returned
together with the per-endpoint attempt counts; exhausting the pool
surfaces failure. -/
def submitWithFailover {ε α : Type} (behave : ε → Nat → Option α) :
    List ε → Option (α × List (ε × Nat))
  | [] => none
  | e :: rest =>
    match attemptWithRetries (behave e) 0 fallbackRetryCount with
    | (some v, n) => some (v, [(e, n)])
    | (none, n) =>
      match submitWithFailover behave rest with
      | none => none
      | some (v, tr) => some (v, (e, n) :: tr)

/-! Concrete example data: a well-formed createProxyWithNonce call data
(selector, singleton word, initializer offset, salt nonce 42, initializer
of 356 bytes carrying a setup call with one owner, threshold 2, a
fallback handler and zero payment fields, padded to a 32-byte multiple)
together with receipts in both historical ProxyCreation encodings. -/

/-- A run of zero characters. -/
def zeros (n : Nat) : String := String.mk (List.replicate n '0')

/-- A 32-byte ABI word, rendered as 64 hex characters, holding the given
hex value right-aligned. -/
def word (v : String) : String := zeros (64 - v.length) ++ v

/-- A 32-byte ABI word holding a 20-byte address right-aligned. -/
def addrWord (a : String) : String := zeros 24 ++ a

def exOwner : String := String.mk (List.replicate 40 'a')

def exFallback : String := String.mk (List.replicate 40 'b')

def exSingleton : String := String.mk (List.replicate 40 'd')

def exFactory : String := "0x" ++ String.mk (List.replicate 40 'f')

/-- The initializer payload: the 4-byte setup selector followed by the
ABI encoding of (address[] owners, uint256 threshold, address to,
bytes data, address fallbackHandler, address paymentToken,
uint256 payment, address paymentReceiver) with one owner and
threshold 2. -/
def exInitializer : String :=
  "b63e800d" ++ word "100" ++ word "2" ++ word "" ++ word "140" ++
  addrWord exFallback ++ word "" ++ word "" ++ word "" ++
  word "1" ++ addrWord exOwner ++ word ""

/-- The full createProxyWithNonce call data. -/
def exInput : String :=
  "0x1688f0b9" ++ addrWord exSingleton ++ word "60" ++ word "2a" ++
  word "164" ++ exInitializer ++ zeros 56

/-- The example transaction.  Its value is 1, which the decoder never
inspects. -/
def exTx : Tx := { «to» := exFactory, input := exInput, value := 1 }

/-- A v1.4.1-style indexed address topic: 12 zero bytes then the deployed
address. -/
def exTopic1 : String := "0x" ++ zeros 24 ++ String.mk (List.replicate 40 'c')

/-- A v1.4.1-style ProxyCreation log: two topics, data unused. -/
def exLog141 : Log :=
  { topics := [proxyCreationTopic, exTopic1], data := "0x00", address := "0x" ++ zeros 40 }

def exReceipt141 : Receipt := { logs := [exLog141] }

def exChain141 : Chain :=
  { getTransaction := fun _ => .ok exTx
    getTransactionReceipt := fun _ => .ok exReceipt141
    getBytecode := fun _ => .ok none }

/-- A v1.3.0-style ProxyCreation log: a single topic, the deployed
address and the singleton ABI-encoded in the data payload. -/
def exLog130 : Log :=
  { topics := [proxyCreationTopic]
    data := "0x" ++ addrWord (String.mk (List.replicate 40 'e')) ++ addrWord exSingleton
    address := "0x" ++ zeros 40 }

def exChain130 : Chain :=
  { getTransaction := fun _ => .ok exTx
    getTransactionReceipt := fun _ => .ok { logs := [exLog130] }
    getBytecode := fun _ => .ok none }

/-- The record the decoder produces on exChain141. -/
def exRecord141 : DeploymentRecord :=
  { factoryAddress := exFactory
    singleton := none
    owners := ["0x" ++ String.mk (List.replicate 40 'a')]
    threshold := 2
    fallbackHandler := "0x" ++ String.mk (List.replicate 40 'b')
    saltNonce := "42"
    hex := exInput
    safeAddress := "0x" ++ String.mk (List.replicate 40 'c') }

/-- The record the decoder produces on exChain130. -/
def exRecord130 : DeploymentRecord :=
  { exRecord141 with
    singleton := some ("0x" ++ String.mk (List.replicate 40 'd'))
    safeAddress := "0x" ++ String.mk (List.replicate 40 'e') }

set_option maxRecDepth 100000 in
/-- Concrete evaluation of the decoder on the v1.4.1-style example. -/
lemma exChain141_parse :
    parseDeploymentTransaction exChain141 ["u"] "0xabc" = .ok exRecord141 := rfl

set_option maxRecDepth 100000 in
/-- Concrete evaluation of the decoder on the v1.3.0-style example. -/
lemma exChain130_parse :
    parseDeploymentTransaction exChain130 ["u"] "0xabc" = .ok exRecord130 := rfl

/-- Forward characterization of a successful decode: when every step of
parseDeploymentTransaction succeeds, the function returns exactly the
record assembled at blockchain.ts lines 134-143. -/
lemma parse_ok_intro {chain : Chain} {urls : List String} {h : String}
    {tx : Tx} {receipt : Receipt} {ev : Log} {sa : String} {sg : Option String}
    {sing0 ini : String} {sn : Nat} {owners : List String} {th : Nat}
    {to0 dat fb pt : String} {pay : Nat} {pr : String}
    (hurls : urls ≠ [])
    (htx : chain.getTransaction h = .ok tx)
    (hsel : jsStartsWith tx.input selectorCreateProxyWithNonce = true)
    (hrc : chain.getTransactionReceipt h = .ok receipt)
    (hfind : receipt.logs.find? isProxyCreationLog = some ev)
    (hev : decodeProxyCreationEvent ev = some (sa, sg))
    (houter : decodeCreateProxyParams (String.mk ('0' :: 'x' :: tx.input.toList.drop 10)) =
      some (sing0, ini, sn))
    (hsetup : decodeSetupParams (jsSlice ini 8) =
      some (owners, th, to0, dat, fb, pt, pay, pr)) :
    parseDeploymentTransaction chain urls h =
      .ok { factoryAddress := tx.«to», singleton := sg, owners := owners,
            threshold := th, fallbackHandler := fb, saltNonce := Nat.repr sn,
            hex := tx.input, safeAddress := sa } := by
  have hempty : urls.isEmpty = false := by
    cases urls with
    | nil => exact absurd rfl hurls
    | cons a t => rfl
  unfold parseDeploymentTransaction
  simp only [hempty, Bool.false_eq_true, if_false, htx, hsel, Bool.not_true,
    hrc, hfind, hev, houter, hsetup]

/-- Inversion of a successful decode: parseDeploymentTransaction returns
a record only when every step succeeded, and the record's fields are the
decoded values. -/
lemma parse_ok_elim {chain : Chain} {urls : List String} {h : String}
    {r : DeploymentRecord}
    (hok : parseDeploymentTransaction chain urls h = .ok r) :
    urls ≠ [] ∧
    ∃ (tx : Tx) (receipt : Receipt) (ev : Log) (sa : String) (sg : Option String)
      (sing0 ini : String) (sn : Nat) (owners : List String) (th : Nat)
      (to0 dat fb pt : String) (pay : Nat) (pr : String),
      chain.getTransaction h = .ok tx ∧
      jsStartsWith tx.input selectorCreateProxyWithNonce = true ∧
      chain.getTransactionReceipt h = .ok receipt ∧
      receipt.logs.find? isProxyCreationLog = some ev ∧
      decodeProxyCreationEvent ev = some (sa, sg) ∧
      decodeCreateProxyParams (String.mk ('0' :: 'x' :: tx.input.toList.drop 10)) =
        some (sing0, ini, sn) ∧
      decodeSetupParams (jsSlice ini 8) = some (owners, th, to0, dat, fb, pt, pay, pr) ∧
      r = { factoryAddress := tx.«to», singleton := sg, owners := owners,
            threshold := th, fallbackHandler := fb, saltNonce := Nat.repr sn,
            hex := tx.input, safeAddress := sa } := by
  unfold parseDeploymentTransaction at hok
  split at hok
  · simp at hok
  next hempty =>
    constructor
    · intro hnil
      rw [hnil] at hempty
      simp at hempty
    split at hok
    · simp at hok
    next tx htx =>
      split at hok
      · simp at hok
      next hsel =>
        split at hok
        · simp at hok
        next receipt hrc =>
          split at hok
          · simp at hok
          next ev hfind =>
            split at hok
            · simp at hok
            next sa sg hev =>
              split at hok
              · simp at hok
              next sing0 ini sn houter =>
                split at hok
                · simp at hok
                next owners th to0 dat fb pt pay pr hsetup =>
                  refine ⟨tx, receipt, ev, sa, sg, sing0, ini, sn, owners, th,
                    to0, dat, fb, pt, pay, pr, htx, ?_, hrc, hfind, hev, houter, hsetup, ?_⟩
                  · revert hsel
                    cases jsStartsWith tx.input selectorCreateProxyWithNonce <;> simp
                  · exact (Except.ok.inj hok).symm

/-- deploySafe issues at most one broadcast call, and any call it issues
is exactly (factoryAddress, deploymentData, 0). -/
lemma deploySafe_calls (w : WalletWorld) (f d : String) :
    (deploySafe w f d).2 = [] ∨ (deploySafe w f d).2 = [(f, d, 0)] := by
  unfold deploySafe
  split
  · exact Or.inl rfl
  split
  · exact Or.inl rfl
  split
  · exact Or.inr rfl
  split
  · exact Or.inr rfl
  split
  · exact Or.inr rfl
  · exact Or.inr rfl

/-- The log scan only reads topics: scanning two log lists that agree
pointwise on topics finds either nothing in both, or logs with equal
topics at the same position. -/
lemma find_isProxyCreationLog_rel {l₁ l₂ : List Log}
    (hf : List.Forall₂ (fun a b => a.topics = b.topics) l₁ l₂) :
    Option.Rel (fun a b => a.topics = b.topics)
      (l₁.find? isProxyCreationLog) (l₂.find? isProxyCreationLog) := by
  induction hf with
  | nil => exact Option.Rel.none
  | cons hab hrest ih =>
    rename_i a b as bs
    have hpred : isProxyCreationLog a = isProxyCreationLog b := by
      unfold isProxyCreationLog
      rw [hab]
    by_cases hp : isProxyCreationLog a = true
    · rw [List.find?_cons_of_pos _ hp, List.find?_cons_of_pos _ (hpred ▸ hp)]
      exact Option.Rel.some hab
    · rw [List.find?_cons_of_neg _ hp, List.find?_cons_of_neg _ (hpred ▸ hp)]
      exact ih

/-- A successfully decoded dynamic `bytes` value is a 0x-tagged string of
an even number of hex characters. -/
lemma decodeBytesAt_shape {d : List Char} {off : Nat} {s : String}
    (h : decodeBytesAt d off = some s) :
    ∃ cs : List Char, s = String.mk ('0' :: 'x' :: cs) ∧ cs.length % 2 = 0 := by
  unfold decodeBytesAt at h
  cases ho : decodeUintAt d off with
  | none => rw [ho] at h; simp at h
  | some o =>
    rw [ho] at h
    simp only [Option.bind_eq_bind, Option.some_bind] at h
    cases hlen : decodeUintAt d o with
    | none => rw [hlen] at h; simp at h
    | some len =>
      rw [hlen] at h
      simp only [Option.some_bind] at h
      split at h
      next hl =>
        refine ⟨(d.drop (2 * (o + 32))).take (2 * len), ?_, ?_⟩
        · simp only [Option.pure_def, Option.some.injEq] at h
          exact h.symm
        · rw [hl]
          omega
      · simp at h

/-- The character arithmetic behind the initializer decode: taking
initializerData.slice(8) and then stripping two more characters (as
viem's hexToBytes does unconditionally) lands exactly 10 characters in,
i.e. right past the 0x tag and the 4-byte setup selector. -/
lemma hexToBytes_jsSlice_eight (s : String) :
    hexToBytes (jsSlice s 8) =
      (let t := s.toList.drop 10
       let t2 := if t.length % 2 = 1 then '0' :: t else t
       if t2.all isHexDigit then some t2 else none) := by
  unfold hexToBytes jsSlice
  simp [List.drop_drop]

/-- Inversion of the createProxyWithNonce parameter decode. -/
lemma decodeCreateProxyParams_elim {s : String} {sing0 ini : String} {sn : Nat}
    (h : decodeCreateProxyParams s = some (sing0, ini, sn)) :
    ∃ d, hexToBytes s = some d ∧ decodeAddressAt d 0 = some sing0 ∧
      decodeBytesAt d 32 = some ini ∧ decodeUintAt d 64 = some sn := by
  simp only [decodeCreateProxyParams, Option.bind_eq_bind, Option.bind_eq_some,
    Option.pure_def, Option.some.injEq, Prod.mk.injEq] at h
  obtain ⟨d, hd, a, ha, b, hb, c, hc, h1, h2, h3⟩ := h
  subst h1; subst h2; subst h3
  exact ⟨d, hd, ha, hb, hc⟩

/-- Inversion of a successful address decode: the 32-byte word at the
offset was read and the address is its low 20 bytes. -/
lemma decodeAddressAt_elim {d : List Char} {off : Nat} {a : String}
    (h : decodeAddressAt d off = some a) :
    ∃ w, readWord d off = some w ∧ a = String.mk ('0' :: 'x' :: w.drop 24) := by
  unfold decodeAddressAt at h
  cases hw : readWord d off with
  | none => rw [hw] at h; simp at h
  | some w =>
    rw [hw] at h
    exact ⟨w, rfl, (Option.some.inj h).symm⟩

/-- Inversion of the two-address decode of a v1.3.0 log data payload:
exactly the words at byte offsets 0 and 32 are read, and the two
addresses are their low 20 bytes, in that order. -/
lemma decodeTwoAddresses_elim {s : String} {a b : String}
    (h : decodeTwoAddresses s = some (a, b)) :
    ∃ d w0 w1, hexToBytes s = some d ∧
      readWord d 0 = some w0 ∧ readWord d 32 = some w1 ∧
      a = String.mk ('0' :: 'x' :: w0.drop 24) ∧
      b = String.mk ('0' :: 'x' :: w1.drop 24) := by
  simp only [decodeTwoAddresses, Option.bind_eq_bind, Option.bind_eq_some,
    Option.pure_def, Option.some.injEq, Prod.mk.injEq] at h
  obtain ⟨d, hd, a2, ha, b2, hb, h1, h2⟩ := h
  obtain ⟨w0, hw0, ha2⟩ := decodeAddressAt_elim ha
  obtain ⟨w1, hw1, hb2⟩ := decodeAddressAt_elim hb
  exact ⟨d, w0, w1, hd, hw0, hw1, by rw [← h1, ha2], by rw [← h2, hb2]⟩

/-- Inversion of the eight-field setup parameter decode: the head words
at byte offsets 0, 32, ..., 224 are decoded as
(address[], uint256, address, bytes, address, address, uint256, address),
in that order. -/
lemma decodeSetupParams_elim {s : String} {owners : List String} {th : Nat}
    {to0 dat fb pt : String} {pay : Nat} {pr : String}
    (h : decodeSetupParams s = some (owners, th, to0, dat, fb, pt, pay, pr)) :
    ∃ d, hexToBytes s = some d ∧
      decodeAddressArrayAt d 0 = some owners ∧
      decodeUintAt d 32 = some th ∧
      decodeAddressAt d 64 = some to0 ∧
      decodeBytesAt d 96 = some dat ∧
      decodeAddressAt d 128 = some fb ∧
      decodeAddressAt d 160 = some pt ∧
      decodeUintAt d 192 = some pay ∧
      decodeAddressAt d 224 = some pr := by
  simp only [decodeSetupParams, Option.bind_eq_bind, Option.bind_eq_some,
    Option.pure_def, Option.some.injEq, Prod.mk.injEq] at h
  obtain ⟨d, hd, x0, h0, x1, h1, x2, h2, x3, h3, x4, h4, x5, h5, x6, h6, x7, h7,
    e0, e1, e2, e3, e4, e5, e6, e7⟩ := h
  subst e0; subst e1; subst e2; subst e3; subst e4; subst e5; subst e6; subst e7
  exact ⟨d, hd, h0, h1, h2, h3, h4, h5, h6, h7⟩

/-- The byte string actually handed to the setup decoder is the
initializer's characters from position 10 on: initializerData.slice(8)
drops the 0x tag plus three selector bytes, and viem's hexToBytes then
strips the remaining two selector characters, so exactly the 4-byte
selector (and the 0x tag) is skipped.  The odd-length re-padding branch
of hexToBytes cannot fire because a decoded bytes value has evenly many
hex characters. -/
lemma hexToBytes_jsSlice8_eq {cs : List Char} {d : List Char}
    (heven : cs.length % 2 = 0)
    (hd : hexToBytes (jsSlice (String.mk ('0' :: 'x' :: cs)) 8) = some d) :
    d = (String.mk ('0' :: 'x' :: cs)).toList.drop 10 := by
  have h1 : (jsSlice (String.mk ('0' :: 'x' :: cs)) 8).toList.drop 2 = cs.drop 8 := by
    show (((('0' :: 'x' :: cs) : List Char).drop 8).drop 2) = cs.drop 8
    rw [List.drop_drop]
    rfl
  simp only [hexToBytes, h1] at hd
  have h2 : (cs.drop 8).length % 2 = 0 := by
    rw [List.length_drop]
    omega
  rw [if_neg (show ¬ (cs.drop 8).length % 2 = 1 by omega)] at hd
  split at hd
  · show d = (('0' :: 'x' :: cs) : List Char).drop 10
    have h3 : (('0' :: 'x' :: cs) : List Char).drop 10 = cs.drop 8 := rfl
    rw [h3]
    exact (Option.some.inj hd).symm
  · simp at hd

/-- A transaction whose call data carries a foreign selector, together
with a chain whose receipt lookups always fail: the decoder must reject
it without ever consulting the receipt. -/
def badTx : Tx := { «to» := exFactory, input := "0xdeadbeef", value := 0 }

def badChain : Chain :=
  { getTransaction := fun _ => .ok badTx
    getTransactionReceipt := fun _ => .error (.rpc "receipt endpoint unreachable")
    getBytecode := fun _ => .error (.rpc "unreachable") }

/-- C6: for every transaction whose call data does not begin with the
4-byte selector 0x1688f0b9, the decoder fails with
WrongTransactionType (the thrown message of blockchain.ts line 80),
and the failure happens before the receipt is fetched and before any
log scanning occurs: the chain's getTransactionReceipt behavior is
universally quantified here, including chains whose receipt lookups
fail or return arbitrary logs, so the outcome cannot depend on the
receipt or its logs. -/
theorem c6_wrong_selector_fails_before_receipt
    (chain : Chain) (urls : List String) (h : String) (tx : Tx)
    (hurls : urls ≠ [])
    (htx : chain.getTransaction h = .ok tx)
    (hsel : jsStartsWith tx.input selectorCreateProxyWithNonce = false) :
    parseDeploymentTransaction chain urls h =
      .error (.thrown "This transaction does not appear to be a Safe deployment transaction") := by
  have hempty : urls.isEmpty = false := by
    cases urls with
    | nil => exact absurd rfl hurls
    | cons a t => rfl
  unfold parseDeploymentTransaction
  simp only [hempty, Bool.false_eq_true, if_false, htx, hsel, Bool.not_false, if_true]

/-- Witness for C6: the selector 0xdeadbeef is rejected with the
WrongTransactionType message on a chain that cannot even serve
receipts. -/
theorem c6_witness :
    parseDeploymentTransaction badChain ["u"] "0xh" =
      .error (.thrown "This transaction does not appear to be a Safe deployment transaction") :=
  c6_wrong_selector_fails_before_receipt badChain ["u"] "0xh" badTx
    (by decide) rfl (by decide)

/-- A chain holding deployed code at every address. -/
def wCode : Chain :=
  { getTransaction := fun _ => .error (.rpc "n/a")
    getTransactionReceipt := fun _ => .error (.rpc "n/a")
    getBytecode := fun _ => .ok (some "0x6080604052") }

/-- A chain holding no code anywhere. -/
def wNoCode : Chain :=
  { getTransaction := fun _ => .error (.rpc "n/a")
    getTransactionReceipt := fun _ => .error (.rpc "n/a")
    getBytecode := fun _ => .ok none }

/-- C7: with a non-empty endpoint list, each verifier returns
Except.ok true exactly when the fetched bytecode is present and differs
from the empty-code sentinel 0x, and it returns an error exactly when
the underlying getBytecode call failed, with the very same error — an
RPC failure is never converted into the boolean false. -/
theorem c7_verifier_code_presence (chain : Chain) (urls : List String) (a : String)
    (hurls : urls ≠ []) :
    ((verifyContractDeployment chain urls a = .ok true) ↔
      (∃ c, chain.getBytecode a = .ok (some c) ∧ c ≠ "0x")) ∧
    (∀ e, verifyContractDeployment chain urls a = .error e ↔
      chain.getBytecode a = .error e) ∧
    ((verifySafeDeployment chain urls a = .ok true) ↔
      (∃ c, chain.getBytecode a = .ok (some c) ∧ c ≠ "0x")) ∧
    (∀ e, verifySafeDeployment chain urls a = .error e ↔
      chain.getBytecode a = .error e) := by
  have hempty : urls.isEmpty = false := by
    cases urls with
    | nil => exact absurd rfl hurls
    | cons x t => rfl
  cases hcode : chain.getBytecode a with
  | error e =>
    simp [verifyContractDeployment, verifySafeDeployment, hempty, hcode]
  | ok code =>
    cases code <;>
      simp [verifyContractDeployment, verifySafeDeployment, hempty, hcode, bne_iff_ne]

/-- Witness for C7: on a chain with code 0x6080604052 at the address the
verifier answers true; on a chain answering the empty-code sentinel it
answers false. -/
theorem c7_witness :
    verifyContractDeployment wCode ["u"] "0x01" = .ok true :=
  (c7_verifier_code_presence wCode ["u"] "0x01" (by decide)).1.mpr
    ⟨"0x6080604052", rfl, by decide⟩

/-- C10 counterexample: on the empty endpoint list the two verifiers do
not fail with the same error — verifySafeDeployment throws the long
configuration message of blockchain.ts line 58 while
verifyContractDeployment throws the short one of line 183 — so the two
functions are not extensionally equal for every RPC URL list. -/
theorem c10_counterexample :
    ¬ (verifySafeDeployment wNoCode [] "0x01" =
       verifyContractDeployment wNoCode [] "0x01") := by
  intro hcontra
  simp only [verifySafeDeployment, verifyContractDeployment, List.isEmpty_nil,
    if_true, Except.error.injEq, Err.thrown.injEq] at hcontra
  exact absurd hcontra (by decide)

/-- C10 (amended): for every non-empty RPC URL list, every address and
every chain behavior, verifySafeDeployment and verifyContractDeployment
return the same boolean or fail with the same error; the two
implementations differ only in the message of the error thrown on an
empty endpoint list. -/
theorem c10_verifiers_agree (chain : Chain) (urls : List String) (a : String)
    (hurls : urls ≠ []) :
    verifySafeDeployment chain urls a = verifyContractDeployment chain urls a := by
  have hempty : urls.isEmpty = false := by
    cases urls with
    | nil => exact absurd rfl hurls
    | cons x t => rfl
  unfold verifySafeDeployment verifyContractDeployment
  simp only [hempty, Bool.false_eq_true, if_false]

/-- Witness for C10 (amended): with one endpoint the two verifiers give
the same answer. -/
theorem c10_witness :
    verifySafeDeployment wNoCode ["u"] "0x01" =
      verifyContractDeployment wNoCode ["u"] "0x01" :=
  c10_verifiers_agree wNoCode ["u"] "0x01" (by decide)

/-- A wallet world in which every step succeeds and in which the target
chain reports deployed code at every address — in particular at the
source Safe address. -/
def exWorldDeployed : WalletWorld :=
  { fetchChainInfo := .ok ()
    getAddresses := .ok ("0x" ++ String.mk (List.replicate 40 '9'))
    sendTransaction := fun _ _ _ _ => .ok "0xbroadcasthash"
    waitForTransactionReceipt := fun _ => .ok exReceipt141
    getBytecode := fun _ => .ok (some "0x6080604052") }

/-- The target chain seen through the same code oracle, so that the
repository's own verifier can attest that the source Safe address
already has code there. -/
def exTargetChain : Chain :=
  { getTransaction := fun _ => .error (.rpc "n/a")
    getTransactionReceipt := fun _ => .error (.rpc "n/a")
    getBytecode := exWorldDeployed.getBytecode }

set_option maxRecDepth 100000 in
/-- C8 counterexample: the target chain already has code at
record.sourceSafeAddress — the repository's own verifier returns true
there — yet the replay executor still issues the broadcast call: the
claimed fail-fast re-check does not exist in deploySafe. -/
theorem c8_counterexample :
    verifyContractDeployment exTargetChain ["u"] exRecord141.safeAddress = .ok true ∧
    (deploySafe exWorldDeployed exRecord141.factoryAddress exRecord141.hex).2 =
      [(exRecord141.factoryAddress, exRecord141.hex, 0)] :=
  ⟨rfl, rfl⟩

/-- C8 (amended): the replay executor performs no code-presence re-check
at all: whenever the chain-metadata fetch and the wallet address lookup
succeed, deploySafe issues exactly the broadcast
(factoryAddress, deploymentData, 0), whatever the world answers for
getBytecode at any address (the world, and with it the code present at
record.sourceSafeAddress, is universally quantified and never
consulted).  The wizard checks factory presence and target-Safe absence
earlier, at the target-chain step, not immediately before the
broadcast. -/
theorem c8_broadcast_unconditional (w : WalletWorld) (f dd acc : String)
    (hfetch : w.fetchChainInfo = .ok ())
    (haddr : w.getAddresses = .ok acc) :
    (deploySafe w f dd).2 = [(f, dd, 0)] ∧
    ∀ g, deploySafe { w with getBytecode := g } f dd = deploySafe w f dd := by
  constructor
  · unfold deploySafe
    simp only [hfetch, haddr]
    cases hsend : w.sendTransaction acc f dd 0 with
    | error e => simp only [hsend]
    | ok hash =>
      simp only [hsend]
      cases hwait : w.waitForTransactionReceipt hash with
      | error e => simp only [hwait]
      | ok receipt =>
        simp only [hwait]
        cases hfind : receipt.logs.find? isProxyCreationLog with
        | none => simp only [hfind]
        | some ev => simp only [hfind]
  · intro g
    rfl

/-- Witness for C8 (amended): in the all-succeeding world the broadcast
trace is exactly the one replayed call. -/
theorem c8_witness :
    (deploySafe exWorldDeployed "0xf" "0xdata").2 = [("0xf", "0xdata", 0)] :=
  (c8_broadcast_unconditional exWorldDeployed "0xf" "0xdata"
    ("0x" ++ String.mk (List.replicate 40 '9')) rfl rfl).1

/-- The failover scenario of C9: three endpoints of which the first two
always fail and the third answers on its first attempt. -/
def exBehave : String → Nat → Option String :=
  fun e _ => if e = "c" then some "ok" else none

/-- C9: an empty endpoint pool makes the decoder fail with the
configuration error of blockchain.ts line 72 before any network
attempt — the chain oracle is universally quantified, so no network
behavior can influence the outcome; the fallback transport is
configured with retryCount 3 and retryDelay 1000 ms (blockchain.ts
lines 175-176); and in the modelled failover loop a pool of three
endpoints whose first two always fail and whose third succeeds
immediately completes via the third endpoint after exactly 3 attempts
on each of the first two. -/
theorem c9_endpoint_failover :
    (∀ (chain : Chain) (h : String),
      parseDeploymentTransaction chain [] h = .error (.thrown "RPC URLs are missing")) ∧
    fallbackRetryCount = 3 ∧ fallbackRetryDelayMs = 1000 ∧
    ∀ (behave : String → Nat → Option String) (e1 e2 e3 v : String),
      (∀ i, behave e1 i = none) → (∀ i, behave e2 i = none) → behave e3 0 = some v →
      submitWithFailover behave [e1, e2, e3] =
        some (v, [(e1, 3), (e2, 3), (e3, 1)]) := by
  refine ⟨fun chain h => rfl, rfl, rfl, ?_⟩
  intro behave e1 e2 e3 v h1 h2 h3
  have ha1 : attemptWithRetries (behave e1) 0 fallbackRetryCount = (none, 3) := by
    simp [attemptWithRetries, fallbackRetryCount, h1]
  have ha2 : attemptWithRetries (behave e2) 0 fallbackRetryCount = (none, 3) := by
    simp [attemptWithRetries, fallbackRetryCount, h2]
  have ha3 : attemptWithRetries (behave e3) 0 fallbackRetryCount = (some v, 1) := by
    simp [attemptWithRetries, fallbackRetryCount, h3]
  unfold submitWithFailover
  rw [ha1]
  unfold submitWithFailover
  rw [ha2]
  unfold submitWithFailover
  rw [ha3]

/-- Witness for C9: the concrete scenario with endpoints a, b, c. -/
theorem c9_witness :
    parseDeploymentTransaction exChain141 [] "0xabc" =
      .error (.thrown "RPC URLs are missing") ∧
    submitWithFailover exBehave ["a", "b", "c"] =
      some ("ok", [("a", 3), ("b", 3), ("c", 1)]) :=
  ⟨c9_endpoint_failover.1 exChain141 "0xabc",
   c9_endpoint_failover.2.2.2 exBehave "a" "b" "c" "ok"
     (fun _ => rfl) (fun _ => rfl) rfl⟩

set_option maxRecDepth 100000 in
/-- C3 counterexample: the decoder accepts a transaction of value 1 (it
never reads the value field), and re-encoding the decoded record as the
call (factoryAddress, rawCallData, 0) then differs from the original
transaction's (to, input, value) in the value component. -/
theorem c3_counterexample :
    parseDeploymentTransaction exChain141 ["u"] "0xabc" = .ok exRecord141 ∧
    (exRecord141.factoryAddress, exRecord141.hex, (0 : Nat)) ≠
      (exTx.«to», exTx.input, exTx.value) :=
  ⟨exChain141_parse, by decide⟩

/-- C3 (amended): for every transaction the decoder accepts, the decoded
record preserves the original call destination and call data verbatim
(factoryAddress = tx.to and rawCallData = tx.input), so the re-encoded
call (factoryAddress, rawCallData, 0) is byte-for-byte the original
(to, input, value) whenever the original transaction's value was 0 (the
decoder never inspects the value, so for nonzero-value transactions the
value component alone differs); and the replay executor submits exactly
the call broadcast(record.factoryAddress, record.rawCallData, 0) — in
every world it issues either no broadcast or exactly that triple,
recomputing nothing. -/
theorem c3_roundtrip (chain : Chain) (urls : List String) (h : String)
    (tx : Tx) (r : DeploymentRecord) (w : WalletWorld)
    (htx : chain.getTransaction h = .ok tx)
    (hok : parseDeploymentTransaction chain urls h = .ok r) :
    r.factoryAddress = tx.«to» ∧ r.hex = tx.input ∧
    (tx.value = 0 →
      (r.factoryAddress, r.hex, (0 : Nat)) = (tx.«to», tx.input, tx.value)) ∧
    ((deploySafe w r.factoryAddress r.hex).2 = [] ∨
      (deploySafe w r.factoryAddress r.hex).2 = [(r.factoryAddress, r.hex, 0)]) := by
  obtain ⟨-, tx2, receipt, ev, sa, sg, sing0, ini, sn, owners, th, to0, dat, fb, pt, pay, pr,
    htx2, hsel, hrc, hfind, hev, houter, hsetup, hr⟩ := parse_ok_elim hok
  rw [htx] at htx2
  cases Except.ok.inj htx2
  subst hr
  refine ⟨rfl, rfl, ?_, deploySafe_calls w _ _⟩
  intro hv
  rw [hv]

set_option maxRecDepth 100000 in
/-- Witness for C3 (amended): the concrete v1.3.0-style example. -/
theorem c3_witness :
    exRecord130.factoryAddress = exTx.«to» ∧ exRecord130.hex = exTx.input ∧
    (exTx.value = 0 →
      (exRecord130.factoryAddress, exRecord130.hex, (0 : Nat)) =
        (exTx.«to», exTx.input, exTx.value)) ∧
    ((deploySafe exWorldDeployed exRecord130.factoryAddress exRecord130.hex).2 = [] ∨
      (deploySafe exWorldDeployed exRecord130.factoryAddress exRecord130.hex).2 =
        [(exRecord130.factoryAddress, exRecord130.hex, 0)]) :=
  c3_roundtrip exChain130 ["u"] "0xabc" exTx exRecord130 exWorldDeployed rfl exChain130_parse

set_option maxRecDepth 100000 in
/-- C5 counterexample: a transaction whose initializer carries one owner
and threshold 2 — violating 1 ≤ threshold ≤ len(owners) — is decoded
successfully into a record instead of failing with MalformedCallData. -/
theorem c5_counterexample :
    parseDeploymentTransaction exChain141 ["u"] "0xabc" = .ok exRecord141 ∧
    exRecord141.owners.length = 1 ∧ exRecord141.threshold = 2 ∧
    ¬ (1 ≤ exRecord141.threshold ∧
       exRecord141.threshold ≤ exRecord141.owners.length) :=
  ⟨exChain141_parse, rfl, rfl, by decide⟩

/-- C5 (amended): the decoder performs no validation of the decoded
threshold against the decoded owners: whenever every decode step
succeeds, parseDeploymentTransaction returns the record with the
threshold and owners exactly as ABI-decoded from the initializer, even
when they violate 1 ≤ threshold ≤ len(owners) (hypothesis hviol), and
no MalformedCallData-style failure is produced. -/
theorem c5_no_threshold_validation
    (chain : Chain) (urls : List String) (h : String)
    (tx : Tx) (receipt : Receipt) (ev : Log) (sa : String) (sg : Option String)
    (sing0 ini : String) (sn : Nat) (owners : List String) (th : Nat)
    (to0 dat fb pt : String) (pay : Nat) (pr : String)
    (hurls : urls ≠ [])
    (htx : chain.getTransaction h = .ok tx)
    (hsel : jsStartsWith tx.input selectorCreateProxyWithNonce = true)
    (hrc : chain.getTransactionReceipt h = .ok receipt)
    (hfind : receipt.logs.find? isProxyCreationLog = some ev)
    (hev : decodeProxyCreationEvent ev = some (sa, sg))
    (houter : decodeCreateProxyParams (String.mk ('0' :: 'x' :: tx.input.toList.drop 10)) =
      some (sing0, ini, sn))
    (hsetup : decodeSetupParams (jsSlice ini 8) =
      some (owners, th, to0, dat, fb, pt, pay, pr))
    (hviol : ¬ (1 ≤ th ∧ th ≤ owners.length)) :
    parseDeploymentTransaction chain urls h =
      .ok { factoryAddress := tx.«to», singleton := sg, owners := owners,
            threshold := th, fallbackHandler := fb, saltNonce := Nat.repr sn,
            hex := tx.input, safeAddress := sa } :=
  parse_ok_intro hurls htx hsel hrc hfind hev houter hsetup

set_option maxRecDepth 1000000 in
/-- Witness for C5 (amended): every decode hypothesis evaluated on the
concrete one-owner, threshold-2 transaction. -/
theorem c5_witness :
    parseDeploymentTransaction exChain141 ["u"] "0xabc" = .ok exRecord141 :=
  c5_no_threshold_validation exChain141 ["u"] "0xabc" exTx exReceipt141 exLog141
    ("0x" ++ String.mk (List.replicate 40 'c')) none
    ("0x" ++ String.mk (List.replicate 40 'd')) ("0x" ++ exInitializer) 42
    ["0x" ++ String.mk (List.replicate 40 'a')] 2
    ("0x" ++ zeros 40) "0x" ("0x" ++ String.mk (List.replicate 40 'b'))
    ("0x" ++ zeros 40) 0 ("0x" ++ zeros 40)
    (by decide) rfl (by decide) rfl rfl rfl rfl rfl (by decide)

/-- C4: for every accepted transaction the initializer is ABI-decoded on
exactly the bytes after its own leading 4-byte setup selector — the
payload handed to the decode is ini.toList.drop 10, the characters past
the 0x tag and the 8 selector characters (initializerData.slice(8)
removes the tag and three selector bytes and viem's hexToBytes strips
the remaining two characters) — as the eight fields at head offsets
0, 32, ..., 224: address[] owners, uint256 threshold, address to,
bytes data, address fallbackHandler, address paymentToken,
uint256 payment, address paymentReceiver; the record retains exactly
owners, threshold and fallbackHandler of these. -/
theorem c4_initializer_decoding (chain : Chain) (urls : List String) (h : String)
    (r : DeploymentRecord)
    (hok : parseDeploymentTransaction chain urls h = .ok r) :
    ∃ (tx : Tx) (sing0 ini : String) (sn : Nat) (d : List Char)
      (owners : List String) (th : Nat) (to0 dat fb pt : String) (pay : Nat) (pr : String),
      chain.getTransaction h = .ok tx ∧
      decodeCreateProxyParams (String.mk ('0' :: 'x' :: tx.input.toList.drop 10)) =
        some (sing0, ini, sn) ∧
      hexToBytes (jsSlice ini 8) = some d ∧
      d = ini.toList.drop 10 ∧
      decodeAddressArrayAt d 0 = some owners ∧
      decodeUintAt d 32 = some th ∧
      decodeAddressAt d 64 = some to0 ∧
      decodeBytesAt d 96 = some dat ∧
      decodeAddressAt d 128 = some fb ∧
      decodeAddressAt d 160 = some pt ∧
      decodeUintAt d 192 = some pay ∧
      decodeAddressAt d 224 = some pr ∧
      r.owners = owners ∧ r.threshold = th ∧ r.fallbackHandler = fb := by
  obtain ⟨-, tx, receipt, ev, sa, sg, sing0, ini, sn, owners, th, to0, dat, fb, pt, pay, pr,
    htx, hsel, hrc, hfind, hev, houter, hsetup, hr⟩ := parse_ok_elim hok
  obtain ⟨d0, hd0, hsing, hbytes, hsn⟩ := decodeCreateProxyParams_elim houter
  obtain ⟨cs, hini, heven⟩ := decodeBytesAt_shape hbytes
  obtain ⟨d, hd, h0, h1, h2, h3, h4, h5, h6, h7⟩ := decodeSetupParams_elim hsetup
  have hdval : d = ini.toList.drop 10 := by
    subst hini
    exact hexToBytes_jsSlice8_eq heven hd
  subst hr
  exact ⟨tx, sing0, ini, sn, d, owners, th, to0, dat, fb, pt, pay, pr,
    htx, houter, hd, hdval, h0, h1, h2, h3, h4, h5, h6, h7, rfl, rfl, rfl⟩

set_option maxRecDepth 100000 in
/-- Witness for C4: the initializer decoding on the concrete example. -/
theorem c4_witness :
    ∃ (tx : Tx) (sing0 ini : String) (sn : Nat) (d : List Char)
      (owners : List String) (th : Nat) (to0 dat fb pt : String) (pay : Nat) (pr : String),
      exChain141.getTransaction "0xabc" = .ok tx ∧
      decodeCreateProxyParams (String.mk ('0' :: 'x' :: tx.input.toList.drop 10)) =
        some (sing0, ini, sn) ∧
      hexToBytes (jsSlice ini 8) = some d ∧
      d = ini.toList.drop 10 ∧
      decodeAddressArrayAt d 0 = some owners ∧
      decodeUintAt d 32 = some th ∧
      decodeAddressAt d 64 = some to0 ∧
      decodeBytesAt d 96 = some dat ∧
      decodeAddressAt d 128 = some fb ∧
      decodeAddressAt d 160 = some pt ∧
      decodeUintAt d 192 = some pay ∧
      decodeAddressAt d 224 = some pr ∧
      exRecord141.owners = owners ∧ exRecord141.threshold = th ∧
      exRecord141.fallbackHandler = fb :=
  c4_initializer_decoding exChain141 ["u"] "0xabc" exRecord141 exChain141_parse

/-- C1: for every receipt log matched as the ProxyCreation event that
carries more than one topic (v1.4.1-style), the decoder takes the
deployed Safe address to be exactly 0x followed by the lower 20 bytes
(the characters past position 26) of the second topic, records no
singleton, and the result is independent of the data payloads of the
logs: running the decoder against any chain that serves the same
transaction and a receipt whose logs agree on topics — with arbitrary
data fields — produces the very same record. -/
theorem c1_v141_second_topic
    (chain : Chain) (urls : List String) (h : String)
    (tx : Tx) (receipt : Receipt) (ev : Log) (t0 t1 : String) (rest : List String)
    (r : DeploymentRecord)
    (htx : chain.getTransaction h = .ok tx)
    (hrc : chain.getTransactionReceipt h = .ok receipt)
    (hfind : receipt.logs.find? isProxyCreationLog = some ev)
    (htop : ev.topics = t0 :: t1 :: rest)
    (hok : parseDeploymentTransaction chain urls h = .ok r) :
    r.safeAddress = String.mk ('0' :: 'x' :: t1.toList.drop 26) ∧
    r.singleton = none ∧
    ∀ (chain₂ : Chain) (receipt₂ : Receipt),
      chain₂.getTransaction h = .ok tx →
      chain₂.getTransactionReceipt h = .ok receipt₂ →
      List.Forall₂ (fun a b => a.topics = b.topics) receipt.logs receipt₂.logs →
      parseDeploymentTransaction chain₂ urls h = .ok r := by
  obtain ⟨hurls, tx2, receipt2, ev2, sa, sg, sing0, ini, sn, owners, th, to0, dat, fb, pt, pay, pr,
    htx2, hsel, hrc2, hfind2, hev, houter, hsetup, hr⟩ := parse_ok_elim hok
  rw [htx] at htx2
  cases Except.ok.inj htx2
  rw [hrc] at hrc2
  cases Except.ok.inj hrc2
  rw [hfind] at hfind2
  cases Option.some.inj hfind2
  have hev2 : decodeProxyCreationEvent ev = some (String.mk ('0' :: 'x' :: t1.toList.drop 26), none) := by
    unfold decodeProxyCreationEvent
    rw [htop]
  rw [hev2] at hev
  have hp := Option.some.inj hev
  injection hp with hsa hsg
  subst hsa
  subst hsg
  subst hr
  refine ⟨rfl, rfl, ?_⟩
  intro chain₂ receipt₂ htx₂ hrc₂ hf
  have hrel := find_isProxyCreationLog_rel hf
  rw [hfind] at hrel
  obtain ⟨ev₂, hfind₂, htops⟩ :
      ∃ ev₂, receipt₂.logs.find? isProxyCreationLog = some ev₂ ∧ ev.topics = ev₂.topics := by
    cases hx : receipt₂.logs.find? isProxyCreationLog with
    | none => rw [hx] at hrel; cases hrel
    | some b =>
      rw [hx] at hrel
      cases hrel with
      | some hab => exact ⟨b, rfl, hab⟩
  have hev₂ : decodeProxyCreationEvent ev₂ =
      some (String.mk ('0' :: 'x' :: t1.toList.drop 26), none) := by
    unfold decodeProxyCreationEvent
    rw [← htops, htop]
  exact parse_ok_intro hurls htx₂ hsel hrc₂ hfind₂ hev₂ houter hsetup

set_option maxRecDepth 100000 in
/-- Witness for C1: the concrete v1.4.1-style example; the decoded
address is 0x plus the characters of the second topic past
position 26. -/
theorem c1_witness :
    exRecord141.safeAddress = String.mk ('0' :: 'x' :: exTopic1.toList.drop 26) ∧
    exRecord141.singleton = none :=
  ⟨(c1_v141_second_topic exChain141 ["u"] "0xabc" exTx exReceipt141 exLog141
      proxyCreationTopic exTopic1 [] exRecord141 rfl rfl rfl rfl exChain141_parse).1,
   (c1_v141_second_topic exChain141 ["u"] "0xabc" exTx exReceipt141 exLog141
      proxyCreationTopic exTopic1 [] exRecord141 rfl rfl rfl rfl exChain141_parse).2.1⟩

/-- C2: for every receipt log matched as the ProxyCreation event that
carries exactly one topic (v1.3.0-style), the decoder ABI-decodes
exactly two address values from the log's data payload — the 32-byte
words at offsets 0 and 32 — and takes the first as the deployed Safe
address and the second as the singleton, in that order; moreover on any
single-topic log the version branch is exactly the two-address decode
of the data payload. -/
theorem c2_v130_two_addresses
    (chain : Chain) (urls : List String) (h : String)
    (receipt : Receipt) (ev : Log) (t0 : String) (r : DeploymentRecord)
    (hrc : chain.getTransactionReceipt h = .ok receipt)
    (hfind : receipt.logs.find? isProxyCreationLog = some ev)
    (htop : ev.topics = [t0])
    (hok : parseDeploymentTransaction chain urls h = .ok r) :
    (∃ d w0 w1,
      hexToBytes ev.data = some d ∧
      readWord d 0 = some w0 ∧ readWord d 32 = some w1 ∧
      r.safeAddress = String.mk ('0' :: 'x' :: w0.drop 24) ∧
      r.singleton = some (String.mk ('0' :: 'x' :: w1.drop 24))) ∧
    ∀ (l : Log) (t : String), l.topics = [t] →
      decodeProxyCreationEvent l =
        (decodeTwoAddresses l.data).map (fun p => (p.1, some p.2)) := by
  obtain ⟨-, tx2, receipt2, ev2, sa, sg, sing0, ini, sn, owners, th, to0, dat, fb, pt, pay, pr,
    htx2, hsel, hrc2, hfind2, hev, houter, hsetup, hr⟩ := parse_ok_elim hok
  rw [hrc] at hrc2
  cases Except.ok.inj hrc2
  rw [hfind] at hfind2
  cases Option.some.inj hfind2
  have hbranch : decodeProxyCreationEvent ev =
      (decodeTwoAddresses ev.data).map (fun p => (p.1, some p.2)) := by
    unfold decodeProxyCreationEvent
    rw [htop]
  rw [hbranch] at hev
  cases hdec : decodeTwoAddresses ev.data with
  | none => rw [hdec] at hev; simp at hev
  | some p =>
    rw [hdec] at hev
    obtain ⟨a, b⟩ := p
    have hp := Option.some.inj hev
    injection hp with hsa hsg
    subst hsa
    subst hsg
    obtain ⟨d, w0, w1, hd, hw0, hw1, ha, hb⟩ := decodeTwoAddresses_elim hdec
    subst hr
    constructor
    · exact ⟨d, w0, w1, hd, hw0, hw1, ha, by rw [hb]⟩
    · intro l t htl
      unfold decodeProxyCreationEvent
      rw [htl]

set_option maxRecDepth 100000 in
/-- Witness for C2: the concrete v1.3.0-style example. -/
theorem c2_witness :
    ∃ d w0 w1,
      hexToBytes exLog130.data = some d ∧
      readWord d 0 = some w0 ∧ readWord d 32 = some w1 ∧
      exRecord130.safeAddress = String.mk ('0' :: 'x' :: w0.drop 24) ∧
      exRecord130.singleton = some (String.mk ('0' :: 'x' :: w1.drop 24)) :=
  (c2_v130_two_addresses exChain130 ["u"] "0xabc" { logs := [exLog130] } exLog130
    proxyCreationTopic exRecord130 rfl rfl rfl exChain130_parse).1

end SafeAnywhere
